import Mathlib

/-!
Verification of the workflow-usage dashboard (app.py) against its
natural-language specification.

The program is a single-file dashboard: it loads a CSV of workflow run
records, normalizes columns, filters by workflow selection and date range,
and computes KPIs, a branch distribution, a daily time series and a table
projection.  This file is a shallow embedding of that pipeline:

* timestamps are modelled as integers (microseconds since the epoch),
  matching the microsecond resolution of datetime.max.time() used for the
  inclusive end-of-day bound;
* pandas NaN / NaT cells are modelled as Option.none;
* numeric (duration, percentage) values are modelled as rationals;
* dataset-level column presence is modelled by a flags record;
* the Streamlit script body is additionally modelled operationally with an
  explicit heap, so that copy-vs-mutate behaviour (df.loc[...].copy(),
  table_df[...] = ... assignments) is visible.
-/

namespace Syfan

/-- Microseconds in one day: the distance from 00:00:00 to the exclusive
end of a calendar day.  datetime.max.time() is 23:59:59.999999, i.e. the
last microsecond of the day. -/
def dayUs : Int := 86400000000

/-- One raw CSV row after cell-level parsing: timestamp is the result of
pd.to_datetime(..., errors="coerce") (none = NaT), duration the result of
pd.to_numeric(..., errors="coerce") (none = NaN), strings are none when
the cell is empty (NaN). -/
structure RawRow where
  timestamp : Option Int
  workflow : Option String
  branch : Option String
  duration : Option Rat
  channel : Option String
  type : Option String
  run_id : Option String
  subject : Option String
  snippet : Option String
deriving DecidableEq

/-- Which optional columns exist in the source frame.  timestamp, workflow
and branch are required (the script stops without them), and
duration_minutes is always added by the load phase. -/
structure ColFlags where
  duration : Bool
  channel : Bool
  type : Bool
  run_id : Bool
  subject : Bool
  snippet : Bool
deriving DecidableEq

/-- A loaded record: one row of df after the load phase.  The timestamp is
guaranteed valid (dropna removed NaT rows); every other cell may still be
null. -/
structure Row where
  timestamp : Int
  workflow : Option String
  branch : Option String
  duration : Option Rat
  duration_minutes : Option Rat
  channel : Option String
  type : Option String
  run_id : Option String
  subject : Option String
  snippet : Option String
deriving DecidableEq

/-- The loaded record set: df together with the column-presence flags. -/
structure Table where
  flags : ColFlags
  rows : List Row

/-- Load phase for one row (app.py lines 64-73): rows whose timestamp
failed to parse are dropped (df.dropna(subset=["timestamp"])); if the
duration column exists it is numeric-coerced and duration_minutes =
duration / 60.0, otherwise duration_minutes = NaN for every row. -/
def normalizeRow (hasDur : Bool) (r : RawRow) : Option Row :=
  match r.timestamp with
  | none => none
  | some t => some
      { timestamp := t
        workflow := r.workflow
        branch := r.branch
        duration := if hasDur then r.duration else none
        duration_minutes := if hasDur then r.duration.map (fun d => d / 60) else none
        channel := r.channel
        type := r.type
        run_id := r.run_id
        subject := r.subject
        snippet := r.snippet }

/-- Load & normalize: the loaded record set from raw rows and flags. -/
def loadNormalize (f : ColFlags) (raws : List RawRow) : Table :=
  { flags := f, rows := raws.filterMap (normalizeRow f.duration) }

/-- Filter specification: the multiselect value and the date-range picker
value (day granularity). -/
structure FilterSpec where
  selected : List String
  startDay : Int
  endDay : Int

/-- start_dt = datetime.combine(start_date, datetime.min.time()), i.e. the
first microsecond of the start day. -/
def start_dt (s : FilterSpec) : Int := s.startDay * dayUs

/-- end_dt = datetime.combine(end_date, datetime.max.time()), i.e. the
last microsecond (23:59:59.999999) of the end day. -/
def end_dt (s : FilterSpec) : Int := s.endDay * dayUs + (dayUs - 1)

/-- The date part of the mask: start_dt <= timestamp <= end_dt, both
inclusive. -/
def inDateRange (s : FilterSpec) (r : Row) : Bool :=
  decide (start_dt s ≤ r.timestamp) && decide (r.timestamp ≤ end_dt s)

/-- df["workflow"].isin(selected): NaN is never a member. -/
def workflowSelected (sel : List String) (r : Row) : Bool :=
  match r.workflow with
  | some w => sel.contains w
  | none => false

/-- The combined row mask (app.py lines 107-109): the workflow condition
is AND-ed in only when the selection is non-empty (if selected_workflows:). -/
def mask (s : FilterSpec) (r : Row) : Bool :=
  if s.selected.isEmpty then inDateRange s r
  else inDateRange s r && workflowSelected s.selected r

/-- filtered = df.loc[mask].copy(). -/
def filteredOf (rows : List Row) (s : FilterSpec) : List Row :=
  rows.filter (mask s)

/-- total_runs = int(len(filtered)). -/
def total_runs (filtered : List Row) : Nat := filtered.length

/-- The non-null duration_minutes values of the subset, in row order. -/
def durationsOf (filtered : List Row) : List Rat :=
  filtered.filterMap (fun r => r.duration_minutes)

/-- has_any_duration = filtered["duration_minutes"].notna().any(). -/
def has_any_duration (filtered : List Row) : Bool :=
  filtered.any (fun r => r.duration_minutes.isSome)

/-- total_minutes: sum of non-null duration_minutes when any exists,
otherwise NaN (modelled as none, displayed as N/A). -/
def total_minutes (filtered : List Row) : Option Rat :=
  if has_any_duration filtered then some (durationsOf filtered).sum else none

/-- avg_minutes: mean of the non-null duration_minutes when any exists,
otherwise NaN (none / N/A). -/
def avg_minutes (filtered : List Row) : Option Rat :=
  if has_any_duration filtered then
    some ((durationsOf filtered).sum / ((durationsOf filtered).length : Rat))
  else none

/-- nunique of the workflow column: distinct non-null values (pandas
nunique ignores NaN). -/
def nuniqueWorkflow (rows : List Row) : Nat :=
  ((rows.filterMap (fun r => r.workflow)).dedup).length

/-- nunique of the branch column: distinct non-null values. -/
def nuniqueBranch (rows : List Row) : Nat :=
  ((rows.filterMap (fun r => r.branch)).dedup).length

/-- active_workflows = int(filtered["workflow"].nunique()) if not
filtered.empty else 0. -/
def active_workflows (filtered : List Row) : Nat :=
  if filtered.isEmpty then 0 else nuniqueWorkflow filtered

/-- active_branches = int(filtered["branch"].nunique()) if not
filtered.empty else 0. -/
def active_branches (filtered : List Row) : Nat :=
  if filtered.isEmpty then 0 else nuniqueBranch filtered

/-- Round a rational to the nearest integer, ties to even: the rounding
mode of numpy / pandas .round() used for the percentage and
duration_minutes columns. -/
def rndHalfEven (q : Rat) : Int :=
  if q - ⌊q⌋ < 1 / 2 then ⌊q⌋
  else if 1 / 2 < q - ⌊q⌋ then ⌊q⌋ + 1
  else if ⌊q⌋ % 2 = 0 then ⌊q⌋ else ⌊q⌋ + 1

/-- Series.round(places): round to the given number of decimal places. -/
def roundTo (places : Nat) (q : Rat) : Rat :=
  (rndHalfEven (q * 10 ^ places) : Rat) / 10 ^ places

/-- The non-null branch values of the subset, in row order
(groupby("branch") silently drops NaN keys). -/
def branchValues (filtered : List Row) : List String :=
  filtered.filterMap (fun r => r.branch)

/-- filtered.groupby("branch").size(): one (branch, count) pair per
distinct non-null branch value. -/
def branchCounts (filtered : List Row) : List (String × Nat) :=
  (branchValues filtered).dedup.map
    (fun b => (b, (branchValues filtered).count b))

/-- runs_by_branch: the (branch, runs) pairs sorted by runs descending
(.sort_values("runs", ascending=False); the sort is by count only, ties
in unspecified order, which insertion sort instantiates). -/
def runs_by_branch (filtered : List Row) : List (String × Nat) :=
  List.insertionSort (fun a b => b.2 ≤ a.2) (branchCounts filtered)

/-- runs_by_branch["runs"].sum(). -/
def branchTotal (filtered : List Row) : Nat :=
  ((runs_by_branch filtered).map Prod.snd).sum

/-- percentage = (runs / runs.sum() * 100).round(1). -/
def pctOf (total : Nat) (n : Nat) : Rat :=
  roundTo 1 ((n : Rat) / (total : Rat) * 100)

/-- percentage_label = percentage.astype(str) + "%": the decimal rendering
of a one-decimal-place value followed by a percent sign. -/
def labelOf (pct : Rat) : String :=
  let k : Int := rndHalfEven (pct * 10)
  toString (k / 10) ++ "." ++ toString (k % 10).natAbs ++ "%"

/-- One row of the runs_by_branch frame as finally displayed; percentage
and label are none until the assignment statements add those columns. -/
structure DistRow where
  branch : String
  runs : Nat
  percentage : Option Rat
  percentage_label : Option String
deriving DecidableEq

/-- The fully built branch-distribution rows (branch, runs, percentage,
label), in descending-runs order. -/
def distRows (filtered : List Row) : List DistRow :=
  (runs_by_branch filtered).map
    (fun p =>
      { branch := p.1
        runs := p.2
        percentage := some (pctOf (branchTotal filtered) p.2)
        percentage_label := some (labelOf (pctOf (branchTotal filtered) p.2)) })

/-- The pie-chart data: none when runs_by_branch["runs"].sum() == 0, in
which case the script shows a warning instead of the chart. -/
def branchDistribution (filtered : List Row) : Option (List DistRow) :=
  if branchTotal filtered = 0 then none else some (distRows filtered)

/-- The calendar day of a timestamp: floor division by the number of
microseconds per day (resample("D") bins timestamps by calendar day). -/
def dayOf (t : Int) : Int := t / dayUs

/-- The day numbers of the rows of the subset. -/
def daysOf (filtered : List Row) : List Int :=
  filtered.map (fun r => dayOf r.timestamp)

/-- daily = ts.resample("D").size(): one (day, count) point for every
calendar day from the earliest to the latest timestamp of the subset,
counting the rows that fall on that day (0 for gap days). -/
def daily (filtered : List Row) : List (Int × Nat) :=
  match (daysOf filtered).min?, (daysOf filtered).max? with
  | some lo, some hi =>
      (List.range (hi - lo + 1).toNat).map
        (fun i : Nat => (lo + (i : Int), (daysOf filtered).count (lo + (i : Int))))
  | _, _ => []

/-- The fixed column allow-list of the runs table (app.py line 214). -/
def allowList : List String :=
  ["timestamp", "workflow", "branch", "channel", "type", "run_id",
   "duration_minutes", "subject", "snippet"]

/-- Whether a column name is present in the loaded frame: the three
required columns and the derived duration_minutes always are; the
passthrough columns only when the CSV had them. -/
def colPresent (f : ColFlags) (c : String) : Bool :=
  if c = "timestamp" then true
  else if c = "workflow" then true
  else if c = "branch" then true
  else if c = "duration_minutes" then true
  else if c = "channel" then f.channel
  else if c = "type" then f.type
  else if c = "run_id" then f.run_id
  else if c = "subject" then f.subject
  else if c = "snippet" then f.snippet
  else false

/-- display_cols = [c for c in allowList if c in filtered.columns]. -/
def display_cols (f : ColFlags) : List String :=
  allowList.filter (colPresent f)

/-- The columns of the loaded frame, as a membership list (the three
required columns, the optional source columns that exist, and the derived
duration_minutes column). -/
def availableCols (f : ColFlags) : List String :=
  ["timestamp", "workflow", "branch"]
    ++ (if f.duration then ["duration"] else [])
    ++ (if f.channel then ["channel"] else [])
    ++ (if f.type then ["type"] else [])
    ++ (if f.run_id then ["run_id"] else [])
    ++ (if f.subject then ["subject"] else [])
    ++ (if f.snippet then ["snippet"] else [])
    ++ ["duration_minutes"]

/-- A displayed cell: a string, a number, a not-yet-rendered timestamp,
or null (NaN). -/
inductive Cell where
  | str (s : String)
  | num (q : Rat)
  | tsVal (t : Int)
  | null
deriving DecidableEq

/-- An optional string cell. -/
def optStr : Option String → Cell
  | some s => Cell.str s
  | none => Cell.null

/-- Gregorian date from a day number (days since 1970-01-01), the
standard civil-from-days conversion used by datetime formatting. -/
def civilFromDays (z0 : Int) : Int × Nat × Nat :=
  let z := z0 + 719468
  let era : Int := z / 146097
  let doe : Nat := (z - era * 146097).toNat
  let yoe : Nat := (doe - doe / 1460 + doe / 36524 - doe / 146096) / 365
  let doy : Nat := doe - (365 * yoe + yoe / 4 - yoe / 100)
  let mp : Nat := (5 * doy + 2) / 153
  let d : Nat := doy - (153 * mp + 2) / 5 + 1
  let m : Nat := if mp < 10 then mp + 3 else mp - 9
  let y : Int := (yoe : Int) + era * 400 + (if m ≤ 2 then 1 else 0)
  (y, m, d)

/-- Zero-pad a field to two digits. -/
def pad2 (n : Nat) : String :=
  if n < 10 then "0" ++ toString n else toString n

/-- Zero-pad a year to four digits. -/
def pad4 (y : Int) : String :=
  if y < 0 then "-" ++ toString (-y)
  else if y < 10 then "000" ++ toString y
  else if y < 100 then "00" ++ toString y
  else if y < 1000 then "0" ++ toString y
  else toString y

/-- dt.strftime("%Y-%m-%d %H:%M:%S"): the timestamp rendered at second
resolution (sub-second microseconds truncated). -/
def formatTs (t : Int) : String :=
  let secs := t / 1000000
  let dayN := secs / 86400
  let sod := (secs - dayN * 86400).toNat
  let c := civilFromDays dayN
  pad4 c.1 ++ "-" ++ pad2 c.2.1 ++ "-" ++ pad2 c.2.2 ++ " " ++
    pad2 (sod / 3600) ++ ":" ++ pad2 (sod % 3600 / 60) ++ ":" ++ pad2 (sod % 60)

/-- The cell of a loaded row at a named column, before the table_df
rendering assignments (timestamp still a datetime value). -/
def rawCell (r : Row) (c : String) : Cell :=
  if c = "timestamp" then Cell.tsVal r.timestamp
  else if c = "workflow" then optStr r.workflow
  else if c = "branch" then optStr r.branch
  else if c = "channel" then optStr r.channel
  else if c = "type" then optStr r.type
  else if c = "run_id" then optStr r.run_id
  else if c = "duration_minutes" then
    (match r.duration_minutes with
     | some q => Cell.num q
     | none => Cell.null)
  else if c = "subject" then optStr r.subject
  else if c = "snippet" then optStr r.snippet
  else Cell.null

/-- The cell of a loaded row at a named column as finally displayed:
timestamp rendered as a "%Y-%m-%d %H:%M:%S" string and duration_minutes
rounded to two decimals (null propagates). -/
def renderCell (r : Row) (c : String) : Cell :=
  if c = "timestamp" then Cell.str (formatTs r.timestamp)
  else if c = "duration_minutes" then
    (match r.duration_minutes with
     | some q => Cell.num (roundTo 2 q)
     | none => Cell.null)
  else rawCell r c

/-- filtered.sort_values("timestamp", ascending=False): the rows in
descending timestamp order (the sort is by timestamp only, ties in
unspecified order, which insertion sort instantiates). -/
def sortByTsDesc (rows : List Row) : List Row :=
  List.insertionSort (fun a b => b.timestamp ≤ a.timestamp) rows

/-- table_df as displayed: rows sorted by timestamp descending, projected
to display_cols, timestamp rendered as a fixed-format string and
duration_minutes rounded to two decimals. -/
def table_df (f : ColFlags) (filtered : List Row) : List (List Cell) :=
  (sortByTsDesc filtered).map (fun r => (display_cols f).map (renderCell r))

/-- ASCII lower-casing of one character, modelling str.lower() on the
header names. -/
def lowerChar (c : Char) : Char :=
  if 'A' ≤ c ∧ c ≤ 'Z' then Char.ofNat (c.toNat + 32) else c

/-- Whitespace as removed by str.strip(). -/
def isSpaceChar (c : Char) : Bool :=
  c = ' ' || c = '\t' || c = '\n' || c = '\r'

/-- Strip leading and trailing whitespace from a character list. -/
def stripChars (l : List Char) : List Char :=
  ((l.dropWhile isSpaceChar).reverse.dropWhile isSpaceChar).reverse

/-- Column-name normalization: c.strip().lower(). -/
def normName (s : String) : String :=
  String.mk ((stripChars s.data).map lowerChar)

/-- One candidate CSV file that exists and was read successfully: its raw
header names and its rows. -/
structure RawCsv where
  header : List String
  rows : List RawRow
deriving DecidableEq

/-- required = ["timestamp", "workflow", "branch"]. -/
def requiredCols : List String := ["timestamp", "workflow", "branch"]

/-- missing = [c for c in required if c not in df.columns], computed on the
normalized column names. -/
def missingCols (header : List String) : List String :=
  let cols := header.map normName
  requiredCols.filter (fun c => !(cols.contains c))

/-- The column flags derived from the normalized header names. -/
def flagsOf (cols : List String) : ColFlags :=
  { duration := cols.contains "duration"
    channel := cols.contains "channel"
    type := cols.contains "type"
    run_id := cols.contains "run_id"
    subject := cols.contains "subject"
    snippet := cols.contains "snippet" }

/-- Result of the load phase: either st.error(...); st.stop() with the
shown message (everything downstream halted), or the loaded record set. -/
inductive LoadOutcome where
  | halted (message : String)
  | loaded (t : Table)

/-- The message of the missing-file error (quotes around the file name
omitted). -/
def csvNotFoundMsg : String :=
  "CSV not found. Please place syfan_workflows.csv next to app.py and rerun."

/-- The message of the missing-columns error, naming the missing columns. -/
def missingMsg (missing : List String) : String :=
  "Missing required column(s): " ++ String.intercalate ", " missing

/-- The whole load phase (app.py lines 37-73): try the candidate paths in
order, taking the first file that exists and reads (none = missing or
unreadable); stop if no candidate worked; normalize column names; stop if
a required column is missing; otherwise normalize rows. -/
def loadApp (files : List (Option RawCsv)) : LoadOutcome :=
  match files.findSome? id with
  | none => LoadOutcome.halted csvNotFoundMsg
  | some csv =>
      let cols := csv.header.map normName
      let missing := requiredCols.filter (fun c => !(cols.contains c))
      if missing.isEmpty then
        LoadOutcome.loaded (loadNormalize (flagsOf cols) csv.rows)
      else LoadOutcome.halted (missingMsg missing)

/-- A Python heap value: one of the dataframe objects the script body
creates. -/
inductive PyVal where
  | frame (rows : List Row)
  | dist (rows : List DistRow)
  | series (pts : List (Int × Nat))
  | table (cells : List (List Cell))

/-- Read a heap cell as a record frame (df, filtered). -/
def frameAt (h : List PyVal) (i : Nat) : List Row :=
  match h.get? i with
  | some (PyVal.frame rs) => rs
  | _ => []

/-- Read a heap cell as the runs_by_branch frame. -/
def distAt (h : List PyVal) (i : Nat) : List DistRow :=
  match h.get? i with
  | some (PyVal.dist rs) => rs
  | _ => []

/-- Read a heap cell as the daily series frame. -/
def seriesAt (h : List PyVal) (i : Nat) : List (Int × Nat) :=
  match h.get? i with
  | some (PyVal.series pts) => pts
  | _ => []

/-- Read a heap cell as the rendered table frame. -/
def tableAt (h : List PyVal) (i : Nat) : List (List Cell) :=
  match h.get? i with
  | some (PyVal.table t) => t
  | _ => []

/-- In-place column assignment frame_df[name] = g(frame_df[name]) on a
cell table with the given column names. -/
def mapCol (name : String) (g : Cell → Cell) (cols : List String)
    (t : List (List Cell)) : List (List Cell) :=
  t.map (fun row => List.zipWith (fun c cell => if c = name then g cell else cell) cols row)

/-- The strftime assignment applied to one cell. -/
def fmtCell : Cell → Cell
  | Cell.tsVal t => Cell.str (formatTs t)
  | c => c

/-- The .round(2) assignment applied to one cell. -/
def rndCell : Cell → Cell
  | Cell.num q => Cell.num (roundTo 2 q)
  | c => c

/-- Everything the script renders from the filtered subset: the five KPI
values and the three data views (none when replaced by an info/warning
message). -/
structure Outputs where
  total_runs : Nat
  total_minutes : Option Rat
  avg_minutes : Option Rat
  active_workflows : Nat
  active_branches : Nat
  branchChart : Option (List DistRow)
  dailyChart : Option (List (Int × Nat))
  runsTable : Option (List (List Cell))
deriving DecidableEq

/-- Final state of one evaluation of the script body: the heap of frame
objects and the rendered outputs. -/
structure ScriptState where
  heap : List PyVal
  out : Outputs

/-- The script body (app.py lines 106-223) as one evaluation over an
explicit heap.  Cell 0 is df (the loaded record set).  filtered is
allocated fresh (df.loc[mask].copy()); runs_by_branch is allocated and
then mutated in place by the percentage and percentage_label column
assignments; table_df is allocated fresh (.copy()) and then mutated in
place by the strftime and round(2) column assignments.  df itself is
never written after load. -/
def script (t : Table) (spec : FilterSpec) : ScriptState :=
  let h0 : List PyVal := [PyVal.frame t.rows]
  let h1 := h0 ++ [PyVal.frame (filteredOf (frameAt h0 0) spec)]
  let filtered := frameAt h1 1
  let kpis : Outputs :=
    { total_runs := total_runs filtered
      total_minutes := total_minutes filtered
      avg_minutes := avg_minutes filtered
      active_workflows := active_workflows filtered
      active_branches := active_branches filtered
      branchChart := none
      dailyChart := none
      runsTable := none }
  if filtered.isEmpty then
    { heap := h1, out := kpis }
  else
    let h2 := h1 ++ [PyVal.dist ((runs_by_branch (frameAt h1 1)).map
      (fun p => { branch := p.1, runs := p.2, percentage := none, percentage_label := none }))]
    let tot := ((distAt h2 2).map (fun d => d.runs)).sum
    let h3 :=
      if tot = 0 then h2
      else h2.set 2 (PyVal.dist ((distAt h2 2).map
        (fun d => { d with percentage := some (pctOf tot d.runs) })))
    let h4 :=
      if tot = 0 then h3
      else h3.set 2 (PyVal.dist ((distAt h3 2).map
        (fun d => { d with percentage_label := some (labelOf (d.percentage.getD 0)) })))
    let branchOut := if tot = 0 then none else some (distAt h4 2)
    let h5 := h4 ++ [PyVal.series (daily (frameAt h4 1))]
    let h6 := h5 ++ [PyVal.table ((sortByTsDesc (frameAt h5 1)).map
      (fun r => (display_cols t.flags).map (rawCell r)))]
    let h7 := h6.set 4 (PyVal.table
      (mapCol "timestamp" fmtCell (display_cols t.flags) (tableAt h6 4)))
    let h8 :=
      if (display_cols t.flags).contains "duration_minutes" then
        h7.set 4 (PyVal.table
          (mapCol "duration_minutes" rndCell (display_cols t.flags) (tableAt h7 4)))
      else h7
    { heap := h8
      out := { kpis with
        branchChart := branchOut
        dailyChart := some (seriesAt h5 3)
        runsTable := some (tableAt h8 4) } }

/-- The outputs as a pure (denotational) function of the loaded record set
and the filter spec. -/
def pipelineOutputs (t : Table) (spec : FilterSpec) : Outputs :=
  let filtered := filteredOf t.rows spec
  { total_runs := total_runs filtered
    total_minutes := total_minutes filtered
    avg_minutes := avg_minutes filtered
    active_workflows := active_workflows filtered
    active_branches := active_branches filtered
    branchChart := if filtered.isEmpty then none else branchDistribution filtered
    dailyChart := if filtered.isEmpty then none else some (daily filtered)
    runsTable := if filtered.isEmpty then none else some (table_df t.flags filtered) }

/-! ### Helper lemmas -/

/-- Deduplicated length is monotone under list inclusion. -/
theorem dedup_length_le_of_subset {α : Type} [DecidableEq α] {l₁ l₂ : List α}
    (h : ∀ a ∈ l₁, a ∈ l₂) : l₁.dedup.length ≤ l₂.dedup.length := by
  rw [← List.card_toFinset, ← List.card_toFinset]
  exact Finset.card_le_card (fun a ha => List.mem_toFinset.mpr (h a (List.mem_toFinset.mp ha)))

/-- Rows of the filtered subset are rows of the record set. -/
theorem mem_of_mem_filteredOf {rows : List Row} {s : FilterSpec} {r : Row}
    (h : r ∈ filteredOf rows s) : r ∈ rows :=
  List.mem_of_mem_filter h

/-! ### Test fixtures (concrete inputs for witnesses and counterexamples) -/

/-- A loaded row with every optional value present except durations. -/
def rowA : Row :=
  { timestamp := 0, workflow := some "deploy", branch := some "main",
    duration := none, duration_minutes := none, channel := none,
    type := none, run_id := none, subject := none, snippet := none }

/-- A loaded row whose branch cell is null. -/
def rowNullBranch : Row :=
  { timestamp := 0, workflow := some "deploy", branch := none,
    duration := none, duration_minutes := none, channel := none,
    type := none, run_id := none, subject := none, snippet := none }

/-- A raw row with a parseable timestamp but a null workflow cell. -/
def rawNullWf : RawRow :=
  { timestamp := some 0, workflow := none, branch := some "main",
    duration := none, channel := none, type := none, run_id := none,
    subject := none, snippet := none }

/-- A filter spec with an empty workflow selection over day 0. -/
def spec0 : FilterSpec := { selected := [], startDay := 0, endDay := 0 }

/-- A filter spec selecting the workflow of rowA over day 0. -/
def specSel : FilterSpec := { selected := ["deploy"], startDay := 0, endDay := 0 }

/-- Column flags of a source with no optional column at all. -/
def flagsNone : ColFlags :=
  { duration := false, channel := false, type := false, run_id := false,
    subject := false, snippet := false }

/-! ### Claims -/

/-- Claim C1 counterexample: with an empty selected-workflow set the
filtered subset is NOT empty — the record set has one row inside the date
range and the Filter operation keeps it, because the workflow condition is
only applied when the selection is non-empty. -/
theorem c1_counterexample : filteredOf [rowA] spec0 ≠ [] := by decide

/-- Claim C1 (amended): if the selected-workflow set of the filter spec is
empty, the Filter operation applies no workflow condition at all — the
resulting subset is exactly the date-range-filtered record set (an empty
selection means select all, not select none). -/
theorem c1_empty_selection_matches_all (rows : List Row) (s : FilterSpec)
    (h : s.selected = []) : filteredOf rows s = rows.filter (inDateRange s) := by
  unfold filteredOf
  apply List.filter_congr
  intro r _
  simp [mask, h]

/-- Claim C1 witness: the amended statement at a concrete input. -/
theorem c1_empty_selection_matches_all_witness :
    spec0.selected = [] ∧ filteredOf [rowA] spec0 = List.filter (inDateRange spec0) [rowA] :=
  ⟨rfl, c1_empty_selection_matches_all [rowA] spec0 rfl⟩

/-- Claim C2: for a non-empty selected-workflow set, the Filter operation
returns exactly the rows whose timestamp lies in the inclusive expanded
interval [startDay 00:00:00, endDay 23:59:59.999999] and whose workflow is
a member of the selected set. -/
theorem c2_filter_exact (rows : List Row) (s : FilterSpec) (h : s.selected ≠ []) :
    filteredOf rows s = rows.filter
      (fun r => decide (start_dt s ≤ r.timestamp ∧ r.timestamp ≤ end_dt s ∧
        ∃ w ∈ s.selected, r.workflow = some w)) := by
  unfold filteredOf
  apply List.filter_congr
  intro r _
  have hne : s.selected.isEmpty = false := by
    cases hs : s.selected with
    | nil => exact absurd hs h
    | cons a l => rfl
  cases hw : r.workflow with
  | none =>
    simp [mask, hne, inDateRange, workflowSelected, hw]
  | some w =>
    simp [mask, hne, inDateRange, workflowSelected, hw, Bool.and_assoc]

/-- Claim C2 witness: the theorem at a concrete input. -/
theorem c2_filter_exact_witness :
    specSel.selected ≠ [] ∧ filteredOf [rowA] specSel = List.filter
      (fun r => decide (start_dt specSel ≤ r.timestamp ∧ r.timestamp ≤ end_dt specSel ∧
        ∃ w ∈ specSel.selected, r.workflow = some w)) [rowA] :=
  ⟨by decide, c2_filter_exact [rowA] specSel (by decide)⟩

/-- Claim C3 counterexample: a raw row with a parseable timestamp but a
null workflow cell survives Load & normalize, so not every surviving row
has a non-null workflow. -/
theorem c3_counterexample :
    ∃ r ∈ (loadNormalize flagsNone [rawNullWf]).rows, r.workflow = none := by decide

/-- Claim C3 (amended): after Load & normalize every surviving row has a
valid timestamp and comes from a raw row whose timestamp parsed, and the
rows with unparseable timestamps are excluded entirely (the surviving row
count is exactly the count of parseable-timestamp raw rows, so they appear
in no count or denominator); workflow and branch cells, however, are NOT
validated and may be null. -/
theorem c3_load_invariants (f : ColFlags) (raws : List RawRow) :
    (loadNormalize f raws).rows.length
        = (raws.filter (fun r => r.timestamp.isSome)).length
    ∧ ∀ r ∈ (loadNormalize f raws).rows, ∃ rr ∈ raws,
        rr.timestamp = some r.timestamp ∧ r.workflow = rr.workflow
          ∧ r.branch = rr.branch := by
  constructor
  · induction raws with
    | nil => simp [loadNormalize]
    | cons a l ih =>
      cases ha : a.timestamp with
      | none =>
        simpa [loadNormalize, normalizeRow, ha, List.filterMap_cons, List.filter_cons]
          using ih
      | some t =>
        simpa [loadNormalize, normalizeRow, ha, List.filterMap_cons, List.filter_cons]
          using ih
  · intro r hr
    simp only [loadNormalize, List.mem_filterMap] at hr
    obtain ⟨rr, hmem, hnorm⟩ := hr
    refine ⟨rr, hmem, ?_⟩
    cases ha : rr.timestamp with
    | none => simp [normalizeRow, ha] at hnorm
    | some t =>
      simp only [normalizeRow, ha, Option.some.injEq] at hnorm
      subst hnorm
      exact ⟨rfl, rfl, rfl⟩

/-- Claim C4: if the duration column is absent from the source, every
loaded record's duration_minutes is null, and for every filter spec
has_any_duration is false and total_minutes and avg_minutes are reported
not-applicable (none). -/
theorem c4_absent_duration_na (f : ColFlags) (raws : List RawRow) (s : FilterSpec)
    (h : f.duration = false) :
    (∀ r ∈ (loadNormalize f raws).rows, r.duration_minutes = none)
    ∧ has_any_duration (filteredOf (loadNormalize f raws).rows s) = false
    ∧ total_minutes (filteredOf (loadNormalize f raws).rows s) = none
    ∧ avg_minutes (filteredOf (loadNormalize f raws).rows s) = none := by
  have hall : ∀ r ∈ (loadNormalize f raws).rows, r.duration_minutes = none := by
    intro r hr
    simp only [loadNormalize, List.mem_filterMap] at hr
    obtain ⟨rr, _, hnorm⟩ := hr
    cases ha : rr.timestamp with
    | none => simp [normalizeRow, ha] at hnorm
    | some t =>
      simp only [normalizeRow, ha, Option.some.injEq] at hnorm
      subst hnorm
      simp [h]
  have hany : has_any_duration (filteredOf (loadNormalize f raws).rows s) = false := by
    rw [has_any_duration, List.any_eq_false]
    intro r hr
    rw [hall r (mem_of_mem_filteredOf hr)]
    simp
  exact ⟨hall, hany, by rw [total_minutes, hany]; rfl, by rw [avg_minutes, hany]; rfl⟩

/-- Claim C4 witness: the theorem at a concrete input. -/
theorem c4_absent_duration_na_witness :
    flagsNone.duration = false
    ∧ ((∀ r ∈ (loadNormalize flagsNone [rawNullWf]).rows, r.duration_minutes = none)
      ∧ has_any_duration (filteredOf (loadNormalize flagsNone [rawNullWf]).rows spec0) = false
      ∧ total_minutes (filteredOf (loadNormalize flagsNone [rawNullWf]).rows spec0) = none
      ∧ avg_minutes (filteredOf (loadNormalize flagsNone [rawNullWf]).rows spec0) = none) :=
  ⟨rfl, c4_absent_duration_na flagsNone [rawNullWf] spec0 rfl⟩

/-- Claim C5: for every record set and filter spec, total_runs equals the
filtered subset's row count, and active_workflows / active_branches (the
distinct non-null workflow and branch counts of the subset, 0 when empty)
never exceed the corresponding distinct counts of the unfiltered record
set. -/
theorem c5_kpi_bounds (t : Table) (s : FilterSpec) :
    total_runs (filteredOf t.rows s) = (filteredOf t.rows s).length
    ∧ active_workflows (filteredOf t.rows s) ≤ nuniqueWorkflow t.rows
    ∧ active_branches (filteredOf t.rows s) ≤ nuniqueBranch t.rows := by
  refine ⟨rfl, ?_, ?_⟩
  · rw [active_workflows]
    by_cases he : (filteredOf t.rows s).isEmpty
    · simp [he]
    · rw [if_neg he, nuniqueWorkflow, nuniqueWorkflow]
      apply dedup_length_le_of_subset
      intro a ha
      rw [List.mem_filterMap] at ha ⊢
      obtain ⟨r, hr, hwf⟩ := ha
      exact ⟨r, mem_of_mem_filteredOf hr, hwf⟩
  · rw [active_branches]
    by_cases he : (filteredOf t.rows s).isEmpty
    · simp [he]
    · rw [if_neg he, nuniqueBranch, nuniqueBranch]
      apply dedup_length_le_of_subset
      intro a ha
      rw [List.mem_filterMap] at ha ⊢
      obtain ⟨r, hr, hwf⟩ := ha
      exact ⟨r, mem_of_mem_filteredOf hr, hwf⟩

/-- Half-even rounding moves a value by at most one half. -/
theorem abs_rndHalfEven_sub_le (q : Rat) : |(rndHalfEven q : Rat) - q| ≤ 1 / 2 := by
  have hf1 : (⌊q⌋ : Rat) ≤ q := Int.floor_le q
  have hf2 : q < ⌊q⌋ + 1 := Int.lt_floor_add_one q
  unfold rndHalfEven
  split_ifs with h1 h2 h3 <;> rw [abs_le] <;> constructor <;> push_cast <;> linarith

/-- Rounding to p decimal places moves a value by at most half of the last
place. -/
theorem abs_roundTo_sub_le (p : Nat) (q : Rat) :
    |roundTo p q - q| ≤ 1 / (2 * 10 ^ p) := by
  have hc : (0 : Rat) < 10 ^ p := by positivity
  have key : roundTo p q - q = ((rndHalfEven (q * 10 ^ p) : Rat) - q * 10 ^ p) / 10 ^ p := by
    rw [roundTo]
    field_simp
    ring
  rw [key, abs_div, abs_of_pos hc, div_le_div_iff₀ hc (by positivity)]
  calc |(rndHalfEven (q * 10 ^ p) : Rat) - q * 10 ^ p| * (2 * 10 ^ p)
      ≤ (1 / 2) * (2 * 10 ^ p) := by
        apply mul_le_mul_of_nonneg_right (abs_rndHalfEven_sub_le _) (by positivity)
    _ = 1 * 10 ^ p := by ring

/-- Rounding each summand to one decimal place moves a list sum by at most
a twentieth per element. -/
theorem abs_sum_roundTo_sub (l : List Rat) :
    |(l.map (roundTo 1)).sum - l.sum| ≤ (l.length : Rat) * (1 / 20) := by
  induction l with
  | nil => simp
  | cons a l ih =>
    have ha : |roundTo 1 a - a| ≤ 1 / 20 := by
      have := abs_roundTo_sub_le 1 a
      norm_num at this
      exact this
    have tri : |roundTo 1 a + (l.map (roundTo 1)).sum - (a + l.sum)|
        ≤ |roundTo 1 a - a| + |(l.map (roundTo 1)).sum - l.sum| := by
      have : roundTo 1 a + (l.map (roundTo 1)).sum - (a + l.sum)
          = (roundTo 1 a - a) + ((l.map (roundTo 1)).sum - l.sum) := by ring
      rw [this]
      exact abs_add _ _
    simp only [List.map_cons, List.sum_cons, List.length_cons]
    push_cast
    calc |roundTo 1 a + (l.map (roundTo 1)).sum - (a + l.sum)|
        ≤ |roundTo 1 a - a| + |(l.map (roundTo 1)).sum - l.sum| := tri
      _ ≤ 1 / 20 + (l.length : Rat) * (1 / 20) := add_le_add ha ih
      _ = ((l.length : Rat) + 1) * (1 / 20) := by ring

instance : IsTotal (String × Nat) (fun a b => b.2 ≤ a.2) :=
  ⟨fun a b => le_total b.2 a.2⟩

instance : IsTrans (String × Nat) (fun a b => b.2 ≤ a.2) :=
  ⟨fun _ _ _ hab hbc => le_trans hbc hab⟩

instance : IsTotal Row (fun a b => b.timestamp ≤ a.timestamp) :=
  ⟨fun a b => le_total b.timestamp a.timestamp⟩

instance : IsTrans Row (fun a b => b.timestamp ≤ a.timestamp) :=
  ⟨fun _ _ _ hab hbc => le_trans hbc hab⟩

/-- Claim C6 counterexample: a non-empty filtered subset whose only row
has a null branch cell produces an EMPTY branch distribution (groupby
drops the NaN key), so the percentages sum to 0, not 100, violating the
claim for this non-empty subset. -/
theorem c6_counterexample :
    filteredOf [rowNullBranch] spec0 ≠ []
    ∧ ¬ (|((distRows (filteredOf [rowNullBranch] spec0)).map
          (fun d => d.percentage.getD 0)).sum - 100|
        ≤ ((distRows (filteredOf [rowNullBranch] spec0)).length : Rat) * (1 / 20)) := by
  constructor
  · decide
  · have h1 : distRows (filteredOf [rowNullBranch] spec0) = [] := by decide
    rw [h1]
    norm_num

/-- Claim C6 (amended): for every filtered subset containing at least one
row with a non-null branch (equivalently, with a positive branch-group
total — rows with null branch are dropped by the grouping), the branch
distribution lists each distinct non-null branch with its row count,
sorted in descending count order, assigns each branch the percentage share
of the grouped total rounded to one decimal, the unrounded percentages sum
to exactly 100, and the rounded percentages sum to 100 up to a rounding
tolerance of one twentieth per branch. -/
theorem c6_branch_distribution (filtered : List Row)
    (h : branchTotal filtered ≠ 0) :
    ((distRows filtered).map (fun d => d.runs)).Pairwise (fun a b => b ≤ a)
    ∧ ((distRows filtered).map (fun d => d.branch)).Perm (branchValues filtered).dedup
    ∧ (∀ d ∈ distRows filtered, d.runs = (branchValues filtered).count d.branch
        ∧ d.percentage = some (roundTo 1 ((d.runs : Rat) / (branchTotal filtered : Rat) * 100)))
    ∧ ((distRows filtered).map
        (fun d => (d.runs : Rat) / (branchTotal filtered : Rat) * 100)).sum = 100
    ∧ |((distRows filtered).map (fun d => d.percentage.getD 0)).sum - 100|
        ≤ ((distRows filtered).length : Rat) * (1 / 20) := by
  have hsorted : ((distRows filtered).map (fun d => d.runs)).Pairwise (fun a b => b ≤ a) := by
    have hs : (runs_by_branch filtered).Pairwise (fun a b => b.2 ≤ a.2) :=
      List.sorted_insertionSort _ _
    have : (distRows filtered).map (fun d => d.runs)
        = (runs_by_branch filtered).map (fun p => p.2) := by
      simp [distRows, List.map_map, Function.comp]
    rw [this]
    exact hs.map _ (fun a b hab => hab)
  have hperm : ((distRows filtered).map (fun d => d.branch)).Perm
      (branchValues filtered).dedup := by
    have h1 : (distRows filtered).map (fun d => d.branch)
        = (runs_by_branch filtered).map (fun p => p.1) := by
      simp [distRows, List.map_map, Function.comp]
    have h2 : (runs_by_branch filtered).Perm (branchCounts filtered) :=
      List.perm_insertionSort _ _
    have h3 : (branchCounts filtered).map (fun p => p.1)
        = (branchValues filtered).dedup := by
      simp [branchCounts, List.map_map, Function.comp_def]
    rw [h1, ← h3]
    exact h2.map _
  have hmem : ∀ d ∈ distRows filtered, d.runs = (branchValues filtered).count d.branch
      ∧ d.percentage = some (roundTo 1
          ((d.runs : Rat) / (branchTotal filtered : Rat) * 100)) := by
    intro d hd
    simp only [distRows, List.mem_map] at hd
    obtain ⟨p, hp, hdp⟩ := hd
    have hpc : p ∈ branchCounts filtered := (List.perm_insertionSort _ _).mem_iff.mp hp
    simp only [branchCounts, List.mem_map] at hpc
    obtain ⟨b, _, hbp⟩ := hpc
    subst hdp
    constructor
    · simp [← hbp]
    · rfl
  have hTcast : ((branchTotal filtered : Rat)) ≠ 0 := by
    exact_mod_cast h
  have hexact : ((distRows filtered).map
      (fun d => (d.runs : Rat) / (branchTotal filtered : Rat) * 100)).sum = 100 := by
    have h1 : (distRows filtered).map
        (fun d => (d.runs : Rat) / (branchTotal filtered : Rat) * 100)
        = (runs_by_branch filtered).map
          (fun p => (p.2 : Rat) * (100 / (branchTotal filtered : Rat))) := by
      simp only [distRows, List.map_map]
      apply List.map_congr_left
      intro p _
      simp [Function.comp]
      ring
    rw [h1, List.sum_map_mul_right]
    have h2 : ((runs_by_branch filtered).map (fun p => ((p.2 : Nat) : Rat))).sum
        = ((branchTotal filtered : Nat) : Rat) := by
      have hmm : (runs_by_branch filtered).map (fun p => ((p.2 : Nat) : Rat))
          = ((runs_by_branch filtered).map Prod.snd).map (Nat.cast : Nat → Rat) := by
        rw [List.map_map]
        rfl
      rw [hmm, branchTotal, ← Nat.cast_list_sum]
    rw [h2]
    field_simp
  have hround : ((distRows filtered).map (fun d => d.percentage.getD 0)).sum
      = (((distRows filtered).map
          (fun d => (d.runs : Rat) / (branchTotal filtered : Rat) * 100)).map
            (roundTo 1)).sum := by
    simp only [distRows, List.map_map]
    congr 1
  have htol : |((distRows filtered).map (fun d => d.percentage.getD 0)).sum - 100|
      ≤ ((distRows filtered).length : Rat) * (1 / 20) := by
    rw [hround]
    have h5 := abs_sum_roundTo_sub ((distRows filtered).map
      (fun d => (d.runs : Rat) / (branchTotal filtered : Rat) * 100))
    rw [hexact] at h5
    simpa using h5
  exact ⟨hsorted, hperm, hmem, hexact, htol⟩

/-- Claim C6 witness: the amended statement at a concrete input with one
non-null branch. -/
theorem c6_branch_distribution_witness :
    branchTotal (filteredOf [rowA] spec0) ≠ 0
    ∧ (((distRows (filteredOf [rowA] spec0)).map (fun d => d.runs)).Pairwise (fun a b => b ≤ a)
      ∧ ((distRows (filteredOf [rowA] spec0)).map (fun d => d.branch)).Perm
          (branchValues (filteredOf [rowA] spec0)).dedup
      ∧ (∀ d ∈ distRows (filteredOf [rowA] spec0),
          d.runs = (branchValues (filteredOf [rowA] spec0)).count d.branch
          ∧ d.percentage = some (roundTo 1 ((d.runs : Rat)
              / (branchTotal (filteredOf [rowA] spec0) : Rat) * 100)))
      ∧ ((distRows (filteredOf [rowA] spec0)).map
          (fun d => (d.runs : Rat) / (branchTotal (filteredOf [rowA] spec0) : Rat) * 100)).sum = 100
      ∧ |((distRows (filteredOf [rowA] spec0)).map (fun d => d.percentage.getD 0)).sum - 100|
          ≤ ((distRows (filteredOf [rowA] spec0)).length : Rat) * (1 / 20)) :=
  ⟨by decide, c6_branch_distribution (filteredOf [rowA] spec0) (by decide)⟩

/-- Summing the indicator of one index over an index range gives one. -/
theorem sum_indicator_range (n j : Nat) (h : j < n) :
    ((List.range n).map (fun i => if i = j then (1 : Nat) else 0)).sum = 1 := by
  induction n with
  | zero => omega
  | succ n ih =>
    rw [List.range_succ, List.map_append, List.sum_append]
    rcases Nat.lt_succ_iff_lt_or_eq.mp h with h1 | h1
    · rw [ih h1]
      have : n ≠ j := by omega
      simp [this]
    · subst h1
      have hz : ((List.range j).map (fun i => if i = j then (1 : Nat) else 0)).sum = 0 := by
        apply List.sum_eq_zero
        intro x hx
        rw [List.mem_map] at hx
        obtain ⟨i, hi, hix⟩ := hx
        rw [List.mem_range] at hi
        have : i ≠ j := by omega
        simp [this] at hix
        omega
      simp [hz]

/-- Summing the occurrence counts of every value of a covering range gives
the length of the list. -/
theorem sum_count_range (l : List Int) (lo : Int) (n : Nat)
    (h : ∀ x ∈ l, lo ≤ x ∧ x < lo + n) :
    ((List.range n).map (fun i : Nat => l.count (lo + (i : Int)))).sum = l.length := by
  induction l with
  | nil =>
    simp only [List.count_nil, List.length_nil]
    apply List.sum_eq_zero
    intro x hx
    rw [List.mem_map] at hx
    obtain ⟨i, _, hix⟩ := hx
    omega
  | cons a l ih =>
    have hmem := h a (List.mem_cons_self a l)
    have htail : ∀ x ∈ l, lo ≤ x ∧ x < lo + n :=
      fun x hx => h x (List.mem_cons_of_mem a hx)
    have hj : (a - lo).toNat < n := by omega
    have hsplit : ∀ i : Nat, (a :: l).count (lo + (i : Int))
        = l.count (lo + (i : Int)) + if i = (a - lo).toNat then 1 else 0 := by
      intro i
      rw [List.count_cons]
      congr 1
      by_cases hai : a = lo + (i : Int)
      · have h1 : (a == lo + (i : Int)) = true := beq_iff_eq.mpr hai
        have h2 : i = (a - lo).toNat := by omega
        rw [h1]
        simp [h2]
      · have h1 : (a == lo + (i : Int)) = false := by
          rw [beq_eq_false_iff_ne]
          exact hai
        have h2 : i ≠ (a - lo).toNat := by omega
        rw [h1]
        simp [h2]
    calc ((List.range n).map (fun i : Nat => (a :: l).count (lo + (i : Int)))).sum
        = ((List.range n).map (fun i : Nat => l.count (lo + (i : Int))
            + if i = (a - lo).toNat then 1 else 0)).sum := by
          congr 1
          apply List.map_congr_left
          intro i _
          exact hsplit i
      _ = ((List.range n).map (fun i : Nat => l.count (lo + (i : Int)))).sum
            + ((List.range n).map (fun i : Nat => if i = (a - lo).toNat then 1 else 0)).sum := by
          rw [← List.sum_map_add]
      _ = l.length + 1 := by rw [ih htail, sum_indicator_range n _ hj]
      _ = (a :: l).length := by simp

/-- Claim C7: for every non-empty filtered subset, the daily series is a
chronologically (strictly increasing) ordered sequence of (day, count)
pairs, its days are exactly the days between the earliest and the latest
timestamp of the subset (gap days included, with their actual count, which
is zero where no row falls), each count is the number of subset rows on
that day, and the counts sum to total_runs. -/
theorem c7_daily_series (filtered : List Row) (h : filtered ≠ []) :
    ((daily filtered).map Prod.fst).Pairwise (fun a b => a < b)
    ∧ (∀ d : Int, d ∈ (daily filtered).map Prod.fst ↔
        ((∃ r ∈ filtered, dayOf r.timestamp ≤ d) ∧ (∃ r ∈ filtered, d ≤ dayOf r.timestamp)))
    ∧ (∀ p ∈ daily filtered,
        p.2 = (filtered.filter (fun r => dayOf r.timestamp == p.1)).length)
    ∧ ((daily filtered).map Prod.snd).sum = total_runs filtered := by
  have hne : daysOf filtered ≠ [] := by
    simp [daysOf]
    exact h
  obtain ⟨lo, hlo⟩ : ∃ lo, (daysOf filtered).min? = some lo := by
    cases hmin : (daysOf filtered).min? with
    | none => rw [List.min?_eq_none_iff] at hmin; exact absurd hmin hne
    | some lo => exact ⟨lo, rfl⟩
  obtain ⟨hi, hhi⟩ : ∃ hi, (daysOf filtered).max? = some hi := by
    cases hmax : (daysOf filtered).max? with
    | none => rw [List.max?_eq_none_iff] at hmax; exact absurd hmax hne
    | some hi => exact ⟨hi, rfl⟩
  have hlo_mem : lo ∈ daysOf filtered := List.min?_mem (fun a b => min_choice a b) hlo
  have hlo_le : ∀ x ∈ daysOf filtered, lo ≤ x :=
    fun x hx => (List.le_min?_iff (fun _ _ _ => le_min_iff) hlo).mp (le_refl lo) x hx
  have hhi_mem : hi ∈ daysOf filtered := List.max?_mem (fun a b => max_choice a b) hhi
  have hhi_ge : ∀ x ∈ daysOf filtered, x ≤ hi :=
    fun x hx => (List.max?_le_iff (fun _ _ _ => max_le_iff) hhi).mp (le_refl hi) x hx
  have hlohi : lo ≤ hi := hlo_le hi hhi_mem
  have hn : (((hi - lo + 1).toNat : Nat) : Int) = hi - lo + 1 := Int.toNat_of_nonneg (by omega)
  have hdaily : daily filtered = (List.range (hi - lo + 1).toNat).map
      (fun i : Nat => (lo + (i : Int), (daysOf filtered).count (lo + (i : Int)))) := by
    simp only [daily, hlo, hhi]
  refine ⟨?_, ?_, ?_, ?_⟩
  · rw [hdaily, List.map_map]
    exact (List.pairwise_lt_range _).map _ (fun a b hab => by
      show lo + (a : Int) < lo + (b : Int)
      omega)
  · intro d
    rw [hdaily, List.map_map]
    constructor
    · intro hd
      rw [List.mem_map] at hd
      obtain ⟨i, hi2, hix⟩ := hd
      rw [List.mem_range] at hi2
      have hdlo : lo ≤ d ∧ d ≤ hi := by
        have : d = lo + (i : Int) := by exact hix.symm
        omega
      rw [daysOf, List.mem_map] at hlo_mem hhi_mem
      obtain ⟨rl, hrl, hrl2⟩ := hlo_mem
      obtain ⟨rh, hrh, hrh2⟩ := hhi_mem
      exact ⟨⟨rl, hrl, by omega⟩, ⟨rh, hrh, by omega⟩⟩
    · intro ⟨⟨r1, hr1, hr1d⟩, ⟨r2, hr2, hr2d⟩⟩
      have h1 : lo ≤ dayOf r1.timestamp :=
        hlo_le _ (by rw [daysOf, List.mem_map]; exact ⟨r1, hr1, rfl⟩)
      have h2 : dayOf r2.timestamp ≤ hi :=
        hhi_ge _ (by rw [daysOf, List.mem_map]; exact ⟨r2, hr2, rfl⟩)
      rw [List.mem_map]
      refine ⟨(d - lo).toNat, ?_, ?_⟩
      · rw [List.mem_range]; omega
      · show lo + ((d - lo).toNat : Int) = d
        omega
  · intro p hp
    rw [hdaily, List.mem_map] at hp
    obtain ⟨i, _, hip⟩ := hp
    have hsnd : p.2 = (daysOf filtered).count p.1 := by
      rw [← hip]
    rw [hsnd, daysOf, List.count_eq_countP, List.countP_map,
      List.countP_eq_length_filter]
    rfl
  · rw [hdaily, List.map_map]
    have hcover : ∀ x ∈ daysOf filtered, lo ≤ x ∧ x < lo + ((hi - lo + 1).toNat : Int) := by
      intro x hx
      have := hlo_le x hx
      have := hhi_ge x hx
      omega
    have hsum := sum_count_range (daysOf filtered) lo (hi - lo + 1).toNat hcover
    show ((List.range (hi - lo + 1).toNat).map
        (fun i : Nat => (daysOf filtered).count (lo + (i : Int)))).sum = total_runs filtered
    rw [hsum, daysOf, List.length_map, total_runs]

/-- Claim C7 witness: the theorem at a concrete non-empty input. -/
theorem c7_daily_series_witness :
    filteredOf [rowA] spec0 ≠ []
    ∧ (((daily (filteredOf [rowA] spec0)).map Prod.fst).Pairwise (fun a b => a < b)
      ∧ (∀ d : Int, d ∈ (daily (filteredOf [rowA] spec0)).map Prod.fst ↔
          ((∃ r ∈ filteredOf [rowA] spec0, dayOf r.timestamp ≤ d)
            ∧ (∃ r ∈ filteredOf [rowA] spec0, d ≤ dayOf r.timestamp)))
      ∧ (∀ p ∈ daily (filteredOf [rowA] spec0),
          p.2 = ((filteredOf [rowA] spec0).filter
            (fun r => dayOf r.timestamp == p.1)).length)
      ∧ ((daily (filteredOf [rowA] spec0)).map Prod.snd).sum
          = total_runs (filteredOf [rowA] spec0)) :=
  ⟨by decide, c7_daily_series (filteredOf [rowA] spec0) (by decide)⟩

/-- Claim C8: for every non-empty filtered subset, the table projection
consists of the subset rows reordered into descending-timestamp order,
each projected onto the fixed column allow-list intersected with the
available columns, rendered so that timestamp becomes a
"%Y-%m-%d %H:%M:%S" string and duration_minutes is rounded to two
decimals. -/
theorem c8_table_projection (f : ColFlags) (filtered : List Row) (h : filtered ≠ []) :
    ∃ l : List Row, l.Perm filtered
      ∧ (l.map Row.timestamp).Pairwise (fun a b => b ≤ a)
      ∧ table_df f filtered = l.map (fun r => (display_cols f).map (renderCell r))
      ∧ display_cols f = allowList.filter (fun c => (availableCols f).contains c) := by
  refine ⟨sortByTsDesc filtered, List.perm_insertionSort _ _, ?_, rfl, ?_⟩
  · have hs : (sortByTsDesc filtered).Pairwise (fun a b => b.timestamp ≤ a.timestamp) :=
      List.sorted_insertionSort _ _
    exact hs.map _ (fun a b hab => hab)
  · obtain ⟨fd, fc, ft, fr, fs, fn⟩ := f
    cases fd <;> cases fc <;> cases ft <;> cases fr <;> cases fs <;> cases fn <;> rfl

/-- Claim C8 witness: the theorem at a concrete non-empty input. -/
theorem c8_table_projection_witness :
    filteredOf [rowA] spec0 ≠ []
    ∧ ∃ l : List Row, l.Perm (filteredOf [rowA] spec0)
      ∧ (l.map Row.timestamp).Pairwise (fun a b => b ≤ a)
      ∧ table_df flagsNone (filteredOf [rowA] spec0)
          = l.map (fun r => (display_cols flagsNone).map (renderCell r))
      ∧ display_cols flagsNone
          = allowList.filter (fun c => (availableCols flagsNone).contains c) :=
  ⟨by decide, c8_table_projection flagsNone (filteredOf [rowA] spec0) (by decide)⟩

/-- Claim C9: if every candidate input file is missing or unreadable the
load phase halts with the file-not-found message; if the first readable
candidate lacks any of the three required columns after case-insensitive,
whitespace-trimmed normalization, it halts with a message naming the
missing columns; in both cases no record set is produced, so everything
downstream is skipped. -/
theorem c9_load_halts (files : List (Option RawCsv)) (csv : RawCsv) :
    ((∀ x ∈ files, x = none) → loadApp files = LoadOutcome.halted csvNotFoundMsg)
    ∧ (files.findSome? id = some csv → missingCols csv.header ≠ [] →
        loadApp files = LoadOutcome.halted (missingMsg (missingCols csv.header)))
    ∧ (((∀ x ∈ files, x = none)
          ∨ (files.findSome? id = some csv ∧ missingCols csv.header ≠ [])) →
        ∀ t, loadApp files ≠ LoadOutcome.loaded t) := by
  have hnone : (∀ x ∈ files, x = none) → files.findSome? id = none := by
    intro hall
    rw [List.findSome?_eq_none_iff]
    intro x hx
    exact hall x hx
  have part1 : (∀ x ∈ files, x = none) → loadApp files = LoadOutcome.halted csvNotFoundMsg := by
    intro hall
    rw [loadApp, hnone hall]
  have part2 : files.findSome? id = some csv → missingCols csv.header ≠ [] →
      loadApp files = LoadOutcome.halted (missingMsg (missingCols csv.header)) := by
    intro hfind hmiss
    have hne : (requiredCols.filter
        (fun c => !((csv.header.map normName).contains c))).isEmpty = false := by
      cases hm : missingCols csv.header with
      | nil => exact absurd hm hmiss
      | cons a l =>
        have ha : requiredCols.filter
            (fun c => !((csv.header.map normName).contains c)) = a :: l := hm
        rw [ha]
        rfl
    simp only [loadApp, hfind, hne, Bool.false_eq_true, if_false]
    rfl
  refine ⟨part1, part2, ?_⟩
  rintro (hall | ⟨hfind, hmiss⟩) t
  · rw [part1 hall]
    intro hcontra
    exact LoadOutcome.noConfusion hcontra
  · rw [part2 hfind hmiss]
    intro hcontra
    exact LoadOutcome.noConfusion hcontra

/-- A candidate file whose header lacks the branch column (after
normalization it has timestamp and workflow only). -/
def csvMissing : RawCsv := { header := ["  TimeStamp ", "Workflow"], rows := [] }

/-- Claim C9 witness: both halting scenarios at concrete inputs. -/
theorem c9_load_halts_witness :
    ((∀ x ∈ ([none, none] : List (Option RawCsv)), x = none)
      ∧ loadApp [none, none] = LoadOutcome.halted csvNotFoundMsg)
    ∧ (([some csvMissing] : List (Option RawCsv)).findSome? id = some csvMissing
      ∧ missingCols csvMissing.header ≠ []
      ∧ loadApp [some csvMissing]
          = LoadOutcome.halted (missingMsg (missingCols csvMissing.header))) :=
  ⟨⟨by decide, (c9_load_halts [none, none] csvMissing).1 (by decide)⟩,
   ⟨rfl, by decide,
    (c9_load_halts [some csvMissing] csvMissing).2.1 rfl (by decide)⟩⟩

/-! ### Reduction lemmas for the operational script model -/

theorem frameAt_zero (rs : List Row) (h : List PyVal) :
    frameAt (PyVal.frame rs :: h) 0 = rs := rfl

theorem frameAt_succ (v : PyVal) (h : List PyVal) (i : Nat) :
    frameAt (v :: h) (i + 1) = frameAt h i := rfl

theorem distAt_zero (rs : List DistRow) (h : List PyVal) :
    distAt (PyVal.dist rs :: h) 0 = rs := rfl

theorem distAt_succ (v : PyVal) (h : List PyVal) (i : Nat) :
    distAt (v :: h) (i + 1) = distAt h i := rfl

theorem seriesAt_zero (pts : List (Int × Nat)) (h : List PyVal) :
    seriesAt (PyVal.series pts :: h) 0 = pts := rfl

theorem seriesAt_succ (v : PyVal) (h : List PyVal) (i : Nat) :
    seriesAt (v :: h) (i + 1) = seriesAt h i := rfl

theorem tableAt_zero (cells : List (List Cell)) (h : List PyVal) :
    tableAt (PyVal.table cells :: h) 0 = cells := rfl

theorem tableAt_succ (v : PyVal) (h : List PyVal) (i : Nat) :
    tableAt (v :: h) (i + 1) = tableAt h i := rfl

/-- The runs column of the freshly grouped (not yet percentaged)
runs_by_branch frame sums to the branch-group total. -/
theorem runs_pipeline (filtered : List Row) :
    (((runs_by_branch filtered).map (fun p =>
        ({ branch := p.1, runs := p.2, percentage := none,
           percentage_label := none } : DistRow))).map (fun d => d.runs)).sum
      = branchTotal filtered := by
  rw [List.map_map]
  rfl

/-- The two in-place column assignments on the grouped frame build exactly
the distRows view. -/
theorem dist_pipeline (filtered : List Row) :
    (((runs_by_branch filtered).map (fun p =>
        ({ branch := p.1, runs := p.2, percentage := none,
           percentage_label := none } : DistRow))).map
      (fun d => { d with percentage := some (pctOf (branchTotal filtered) d.runs) })).map
        (fun d => { d with percentage_label := some (labelOf (d.percentage.getD 0)) })
      = distRows filtered := by
  rw [List.map_map, List.map_map]
  rfl

/-- Applying the strftime step then the round(2) step to one raw cell
gives the rendered cell. -/
theorem render_steps (r : Row) (c : String) :
    (if c = "duration_minutes"
      then rndCell (if c = "timestamp" then fmtCell (rawCell r c) else rawCell r c)
      else (if c = "timestamp" then fmtCell (rawCell r c) else rawCell r c))
      = renderCell r c := by
  by_cases h1 : c = "timestamp"
  · subst h1
    simp [renderCell, rawCell, fmtCell]
  · by_cases h2 : c = "duration_minutes"
    · subst h2
      cases hd : r.duration_minutes <;>
        simp [renderCell, rawCell, rndCell, h1, hd]
    · simp [renderCell, h1, h2]

/-- The two in-place column assignments on one projected row render it. -/
theorem row_render (r : Row) (cols : List String) :
    List.zipWith (fun c cell => if c = "duration_minutes" then rndCell cell else cell) cols
      (List.zipWith (fun c cell => if c = "timestamp" then fmtCell cell else cell) cols
        (cols.map (rawCell r)))
      = cols.map (renderCell r) := by
  induction cols with
  | nil => rfl
  | cons c cs ih =>
    simp only [List.map_cons, List.zipWith_cons_cons, ih]
    rw [render_steps]

/-- The two in-place column assignments on the copied, sorted, projected
table frame produce exactly the table_df view. -/
theorem table_pipeline (f : ColFlags) (filtered : List Row) :
    mapCol "duration_minutes" rndCell (display_cols f)
      (mapCol "timestamp" fmtCell (display_cols f)
        ((sortByTsDesc filtered).map (fun r => (display_cols f).map (rawCell r))))
      = table_df f filtered := by
  rw [table_df]
  unfold mapCol
  rw [List.map_map, List.map_map]
  apply List.map_congr_left
  intro r _
  exact row_render r (display_cols f)

/-- duration_minutes is always one of the displayed columns (the load
phase always adds it). -/
theorem display_cols_contains_duration (f : ColFlags) :
    (display_cols f).contains "duration_minutes" = true := by
  obtain ⟨fd, fc, ft, fr, fs, fn⟩ := f
  cases fd <;> cases fc <;> cases ft <;> cases fr <;> cases fs <;> cases fn <;> rfl

/-- Claim C10: one evaluation of the script body leaves the loaded record
set (heap cell 0, the df object) unchanged — every intermediate frame is a
fresh copy and the in-place column assignments hit only those copies — and
its rendered outputs coincide with the pure pipeline functions of the
record set and the filter spec alone, so equal inputs give equal outputs. -/
theorem c10_pure_pipeline (t : Table) (spec : FilterSpec) :
    (script t spec).heap.get? 0 = some (PyVal.frame t.rows)
    ∧ (script t spec).out = pipelineOutputs t spec := by
  by_cases hempty : (filteredOf t.rows spec).isEmpty
  · constructor
    · simp only [script, List.cons_append, List.nil_append, frameAt_zero, frameAt_succ,
        hempty, if_true]
      rfl
    · simp only [script, pipelineOutputs, List.cons_append, List.nil_append,
        frameAt_zero, frameAt_succ, hempty, if_true]
  · have hemptyF : (filteredOf t.rows spec).isEmpty = false :=
      Bool.not_eq_true _ ▸ Bool.eq_false_iff.mpr hempty
    by_cases htot : branchTotal (filteredOf t.rows spec) = 0
    · constructor
      · simp only [script, List.cons_append, List.nil_append, frameAt_zero, frameAt_succ,
          distAt_zero, distAt_succ, seriesAt_zero, seriesAt_succ, tableAt_zero, tableAt_succ,
          hemptyF, Bool.false_eq_true, if_false, runs_pipeline, htot, if_true,
          display_cols_contains_duration, List.set_cons_succ, List.set_cons_zero]
        rfl
      · simp only [script, pipelineOutputs, branchDistribution, List.cons_append,
          List.nil_append, frameAt_zero, frameAt_succ, distAt_zero, distAt_succ,
          seriesAt_zero, seriesAt_succ, tableAt_zero, tableAt_succ, hemptyF,
          Bool.false_eq_true, if_false, runs_pipeline, htot, if_true,
          display_cols_contains_duration, List.set_cons_succ, List.set_cons_zero,
          table_pipeline]
    · constructor
      · simp only [script, List.cons_append, List.nil_append, frameAt_zero, frameAt_succ,
          distAt_zero, distAt_succ, seriesAt_zero, seriesAt_succ, tableAt_zero, tableAt_succ,
          hemptyF, Bool.false_eq_true, if_false, runs_pipeline, htot,
          display_cols_contains_duration, if_true, List.set_cons_succ, List.set_cons_zero]
        rfl
      · simp only [script, pipelineOutputs, branchDistribution, List.cons_append,
          List.nil_append, frameAt_zero, frameAt_succ, distAt_zero, distAt_succ,
          seriesAt_zero, seriesAt_succ, tableAt_zero, tableAt_succ, hemptyF,
          Bool.false_eq_true, if_false, runs_pipeline, htot,
          display_cols_contains_duration, if_true, List.set_cons_succ, List.set_cons_zero,
          dist_pipeline, table_pipeline]

end Syfan
